import Mathlib

/-!
Verification of the scenario execution engine of the web-automation
extension.  The definitions below are shallow embeddings of the JavaScript
sources (`src/popup/popup.js`, `src/content/modules/element-finder.js`, and
the configuration manager); JS numbers are modelled as `ℚ`, JS strings as
`String`/`List Char`, nullable values as `Option`, and thrown exceptions as
`Except`/`Option` results.  Every random source (`Math.random()`) is an
explicit parameter, mirroring the injectable-generator requirement of the
design notes.
-/

namespace WebAuto

/-! ## JavaScript string primitives -/

/-- `begWith l p` models `String.prototype.startsWith`: `p` is an initial
segment of `l`. -/
def begWith : List Char → List Char → Bool
  | _, [] => true
  | [], _ :: _ => false
  | x :: xs, y :: ys => x = y && begWith xs ys

/-- `occursIn p l` models `String.prototype.includes`: the pattern `p`
occurs contiguously somewhere in `l`. -/
def occursIn (p : List Char) : List Char → Bool
  | [] => begWith [] p
  | c :: t => begWith (c :: t) p || occursIn p t

/-- `strIncludes s pat` is `s.includes(pat)` on `String`s. -/
def strIncludes (s pat : String) : Bool :=
  occursIn pat.data s.data

/-- `splitOnChar c l` models `String.prototype.split` with a one-character
separator: empty segments are preserved. -/
def splitOnChar (c : Char) : List Char → List (List Char)
  | [] => [[]]
  | x :: xs =>
    let r := splitOnChar c xs
    if x = c then [] :: r
    else
      match r with
      | [] => [[x]]
      | h :: t => (x :: h) :: t

/-- ASCII lower-casing of a character list, modelling
`String.prototype.toLowerCase` on the ASCII strings the engine handles. -/
def toLowerL (l : List Char) : List Char :=
  l.map Char.toLower

/-- `trimL` models `String.prototype.trim`: leading and trailing whitespace
removed. -/
def trimL (l : List Char) : List Char :=
  ((l.dropWhile Char.isWhitespace).reverse.dropWhile Char.isWhitespace).reverse

/-- Value of a list of decimal digits. -/
def digitsToNat (l : List Char) : ℕ :=
  l.foldl (fun acc c => acc * 10 + (c.toNat - ('0').toNat)) 0

/-- Fractional part `.d₁d₂…` as a rational. -/
def fracVal (l : List Char) : ℚ :=
  (digitsToNat l : ℚ) / (10 ^ l.length)

/-- `parseFloatL` models JavaScript `parseFloat` on the nonnegative decimal
literals the duration parser receives (digits with an optional fractional
part); `none` models the `NaN` result on input that does not start with a
digit. -/
def parseFloatL (l : List Char) : Option ℚ :=
  let ds := l.takeWhile Char.isDigit
  if ds.isEmpty then none
  else
    some ((digitsToNat ds : ℚ) +
      match l.dropWhile Char.isDigit with
      | '.' :: r => fracVal (r.takeWhile Char.isDigit)
      | _ => 0)

/-! ## Timing model (`popup.js` `parseTimeValue` / `parseDuration`) -/

/-- `parseTimeValue` from `popup.js`: `parseFloat` the string, then scale by
the unit suffix — `ms` leaves the value, `s` multiplies by 1000, and a
string containing neither defaults to milliseconds. -/
def parseTimeValue (l : List Char) : Option ℚ :=
  (parseFloatL l).map fun value =>
    if occursIn ('m' :: 's' :: []) l then value
    else if occursIn ('s' :: []) l then value * 1000
    else value

/-- `parseDuration` from `popup.js`.  A string containing `-` is split into
two bounds and a point is sampled as `rand * (max - min) + min` where
`rand` is the injected `Math.random()` draw; otherwise the single value is
parsed.  `none` models `NaN` propagation. -/
def parseDuration (s : String) (rand : ℚ) : Option ℚ :=
  if strIncludes s "-" then
    match splitOnChar '-' s.data with
    | minStr :: maxStr :: _ =>
      match parseTimeValue minStr, parseTimeValue maxStr with
      | some mn, some mx => some (rand * (mx - mn) + mn)
      | _, _ => none
    | _ => none
  else
    parseTimeValue s.data

/-! ## Error classification (`popup.js` `shouldAbortOnError` and
`handleExecutionError`) -/

/-- The fixed fatal-substring list of `shouldAbortOnError`. -/
def fatalErrors : List String :=
  ["network_error", "page_crash", "extension_error"]

/-- `shouldAbortOnError` from `popup.js`: the error message, lower-cased,
contains one of the fatal substrings. -/
def shouldAbortOnError (msg : String) : Bool :=
  fatalErrors.any fun f => occursIn f.data (toLowerL msg.data)

/-- The decision taken by `handleExecutionError` at the run-loop boundary. -/
inductive ErrorDisposition where
  | stopSession
  | scheduleNext
  deriving DecidableEq

/-- `handleExecutionError` from `popup.js`, reduced to its decision: stop
the session on a fatal error, otherwise schedule the next tick. -/
def handleExecutionError (msg : String) : ErrorDisposition :=
  if shouldAbortOnError msg then .stopSession else .scheduleNext

/-! ## Conditions (`popup.js` `checkActionConditions`) -/

/-- An action's `conditions` object.  `Option` distinguishes an absent key
from a present one; JavaScript truthiness-guards (`0`, `""` skip a check)
are reproduced in the check functions. -/
structure Conditions where
  minTimeOnPage : Option ℚ
  maxTimeOnPage : Option ℚ
  elementExists : Option String
  elementNotExists : Option String
  goalProgress : Option (List (String × ℚ))
  deriving DecidableEq

/-- The engine state a condition check reads: `getTimeOnCurrentPage()` in
milliseconds, `getMetric` for each metric, and whether `findElement`
succeeds for a selector (element resolution happens against the live page
and is an oracle here). -/
structure CondEnv where
  timeOnPage : ℚ
  metricOf : String → ℚ
  elementFound : String → Bool

/-- The first check of `checkActionConditions`:
`conditions.minTimeOnPage && getTimeOnCurrentPage() < minTimeOnPage * 1000`
(a present but zero value is falsy and skips the check). -/
def minTimeFails (env : CondEnv) (c : Conditions) : Bool :=
  match c.minTimeOnPage with
  | none => false
  | some v => decide (v ≠ 0) && decide (env.timeOnPage < v * 1000)

/-- The second check:
`conditions.maxTimeOnPage && getTimeOnCurrentPage() > maxTimeOnPage * 1000`. -/
def maxTimeFails (env : CondEnv) (c : Conditions) : Bool :=
  match c.maxTimeOnPage with
  | none => false
  | some v => decide (v ≠ 0) && decide (env.timeOnPage > v * 1000)

/-- The third check: `conditions.elementExists` names a selector and
`findElement` throws for it (an empty selector string is falsy). -/
def elemExistsFails (env : CondEnv) (c : Conditions) : Bool :=
  match c.elementExists with
  | none => false
  | some s => decide (s ≠ "") && !env.elementFound s

/-- The fourth check: `conditions.elementNotExists` names a selector and
`findElement` finds it. -/
def elemAbsentFails (env : CondEnv) (c : Conditions) : Bool :=
  match c.elementNotExists with
  | none => false
  | some s => decide (s ≠ "") && env.elementFound s

/-- The fifth check: some `goalProgress` entry's metric is still below its
threshold. -/
def goalFails (env : CondEnv) (c : Conditions) : Bool :=
  match c.goalProgress with
  | none => false
  | some gs => gs.any fun g => decide (env.metricOf g.1 < g.2)

/-- `checkActionConditions` from `popup.js`: the if/return-false chain, in
source order — time-on-page bounds, element-exists, element-absent, then
goal-progress thresholds. -/
def checkActionConditions (env : CondEnv) (c : Conditions) : Bool :=
  if minTimeFails env c then false
  else if maxTimeFails env c then false
  else if elemExistsFails env c then false
  else if elemAbsentFails env c then false
  else if goalFails env c then false
  else true

/-! ## Actions, metrics and micro-sequences -/

/-- A micro action.  Its interpreter cases (`wait`/`move`/`click`/…)
interact with the live page, so a micro action is identified by name here
and each execution's outcome is supplied by the environment. -/
structure MicroAction where
  name : String
  deriving DecidableEq

/-- A processed scenario action as the run loop consumes it. -/
structure Action where
  name : String
  probability : ℚ
  conditions : Option Conditions
  impact : Option (List (String × ℚ))
  microSequence : List MicroAction
  targetPage : Option String
  deriving DecidableEq

/-- The goal tracker's metric accumulators, as an association list. -/
abbrev Metrics := List (String × ℚ)

/-- Add one delta to one accumulator, creating the key on first use. -/
def addDelta : Metrics → String → ℚ → Metrics
  | [], k, d => [(k, d)]
  | (k', v) :: rest, k, d =>
    if k' = k then (k', v + d) :: rest else (k', v) :: addDelta rest k d

/-- Modelled from the spec: `progress-tracker.js` is not among the sources;
§4.3 specifies `updateMetrics(deltas)` as "adds each delta to its
accumulator (keys not preconfigured are created on first use)". -/
def updateMetrics (m : Metrics) (deltas : List (String × ℚ)) : Metrics :=
  deltas.foldl (fun acc g => addDelta acc g.1 g.2) m

/-- `if (action.impact) updateMetrics(action.impact)`. -/
def applyImpact (m : Metrics) : Option (List (String × ℚ)) → Metrics
  | none => m
  | some deltas => updateMetrics m deltas

/-! ## Micro-sequence execution (`popup.js` `executeActionSequence`,
`executeSelectedAction`) -/

/-- How one `executeActionSequence` call ended when it did not throw:
either the whole list ran, or the `!isRunning || isPaused` check before a
step broke the loop.  JavaScript returns `undefined` in both cases — the
distinction is recorded here only so theorems can talk about it; no
embedded caller inspects it. -/
inductive SeqOutcome where
  | completed
  | brokeEarly
  deriving DecidableEq

/-- The environment of one micro-sequence execution: the values of the
shared mutable `this.isRunning` / `this.isPaused` flags as observed by the
check before step `i` (pause and stop commands can arrive between steps),
and the outcome of the page interaction performed by step `i`
(`Except.error` models a thrown error with its message). -/
structure ExecEnv where
  flagsAt : ℕ → Bool × Bool
  microResult : ℕ → Except String Unit
  cond : CondEnv

/-- `executeActionSequence` from `popup.js`: before each micro action the
run/pause flags are checked and the loop `break`s (returning normally) if
the session is stopped or paused; a micro-action error is rethrown when
`shouldAbortOnError` classifies it fatal and is otherwise logged, the loop
continuing with the next micro action. -/
def executeActionSequence (env : ExecEnv) : ℕ → List MicroAction → Except String SeqOutcome
  | _, [] => .ok .completed
  | i, _ :: rest =>
    let flags := env.flagsAt i
    if !flags.1 || flags.2 then .ok .brokeEarly
    else
      match env.microResult i with
      | .ok _ => executeActionSequence env (i + 1) rest
      | .error e =>
        if shouldAbortOnError e then .error e
        else executeActionSequence env (i + 1) rest

/-- `executeSelectedAction` from `popup.js`, reduced to its effect on the
goal tracker: re-check the action's conditions (skip silently when they
fail), run the micro sequence when non-empty, then apply `action.impact`.
The result is the tracker state together with the propagated error, if the
sequence threw.  `handlePageTransition` (for `targetPage`) only waits,
re-detects the page and logs — it cannot throw and does not touch the
tracker, so it does not appear in the result. -/
def executeSelectedAction (env : ExecEnv) (a : Action) (m : Metrics) :
    Metrics × Option String :=
  if (match a.conditions with
      | some c => !checkActionConditions env.cond c
      | none => false) then
    (m, none)
  else
    match
      (if !a.microSequence.isEmpty then executeActionSequence env 0 a.microSequence
       else .ok .completed) with
    | .error e => (m, some e)
    | .ok _ => (applyImpact m a.impact, none)

/-! ## Action selection (`popup.js` `getAvailableActions`, `selectAction`) -/

/-- `availableActions.filter` inside `selectAction`:
`!action.conditions || await this.checkActionConditions(...)`. -/
def filterByConditions (env : CondEnv) (l : List Action) : List Action :=
  l.filter fun a =>
    match a.conditions with
    | none => true
    | some c => checkActionConditions env c

/-- `validActions.reduce((sum, action) => sum + action.probability, 0)`. -/
def totalWeight (l : List Action) : ℚ :=
  (l.map Action.probability).sum

/-- The weighted-selection loop of `selectAction`: subtract each action's
probability from `r` and return the first action at which `r ≤ 0`; `none`
when the loop runs off the end of the list. -/
def selectWalk : ℚ → List Action → Option Action
  | _, [] => none
  | r, a :: rest =>
    if r - a.probability ≤ 0 then some a else selectWalk (r - a.probability) rest

/-- `selectAction` from `popup.js` with the `Math.random()` draw injected:
filter by conditions, return `null` on an empty set, otherwise walk with
`r = draw * totalWeight`; the post-loop fallback returns
`validActions[0]`. -/
def selectAction (env : CondEnv) (draw : ℚ) (available : List Action) :
    Option Action :=
  let valid := filterByConditions env available
  if valid.isEmpty then none
  else
    match selectWalk (draw * totalWeight valid) valid with
    | some a => some a
    | none => valid.head?

/-- The two action lists of a page configuration. -/
structure ActionLists where
  navigation : List Action
  nonNavigation : List Action

/-- A page configuration as the run loop reads it (`stayDuration` bounds,
entry actions, action lists); absent members are `none`. -/
structure PageConfig where
  stayDurationMin : Option ℚ
  stayDurationMax : Option ℚ
  entryActions : Option (List MicroAction)
  actions : Option ActionLists

/-- `getAvailableActions` from `popup.js`: concatenate the non-navigation
and navigation lists and keep the actions with `probability > 0`. -/
def getAvailableActions : Option PageConfig → List Action
  | none => []
  | some cfg =>
    match cfg.actions with
    | none => []
    | some al =>
      (al.nonNavigation ++ al.navigation).filter fun a => decide (0 < a.probability)

/-! ## Session state machine (`popup.js` run loop) -/

/-- The engine's mutable session fields: the `isRunning`/`isPaused` flags,
the pending `executionTimer` (the scheduled delay, `none` when no tick is
pending) and the goal tracker's metrics. -/
structure EngineState where
  isRunning : Bool
  isPaused : Bool
  executionTimer : Option ℚ
  metrics : Metrics

/-- `pauseAutomation` from `popup.js`: set `isPaused` and clear the pending
timer. -/
def pauseAutomation (s : EngineState) : EngineState :=
  { s with isPaused := true, executionTimer := none }

/-- `stopAutomation` from `popup.js`, reduced to the session fields: clear
both flags and the pending timer. -/
def stopAutomation (s : EngineState) : EngineState :=
  { s with isRunning := false, isPaused := false, executionTimer := none }

/-- `x || d` on an optional number (`0` is falsy and takes the default). -/
def orDefault (x : Option ℚ) (d : ℚ) : ℚ :=
  match x with
  | none => d
  | some v => if v = 0 then d else v

/-- `scheduleNextExecution` from `popup.js`: return immediately when not
running or paused, otherwise draw a delay from the page's
`stayDuration` range (`min || 2`, `max || 5`, seconds) and store the
pending timer. -/
def scheduleNextExecution (cfg : PageConfig) (stayDraw : ℚ) (s : EngineState) :
    EngineState :=
  if !s.isRunning || s.isPaused then s
  else
    let minD := orDefault cfg.stayDurationMin 2
    let maxD := orDefault cfg.stayDurationMax 5
    { s with executionTimer := some ((stayDraw * (maxD - minD) + minD) * 1000) }

/-- The environment of one run-loop tick: the goal tracker's answers, the
page configuration looked up for the current page, the random draws, the
browser history length (for the stuck path) and the observation
environments of the entry and action micro-sequences. -/
structure TickEnv where
  goalsMet : Bool
  timedOut : Bool
  pageConfig : Option PageConfig
  draw : ℚ
  stayDraw : ℚ
  historyLen : ℕ
  entryExec : ExecEnv
  actionExec : ExecEnv

/-- `handleStuckScenario` from `popup.js`: go back in history when
possible (the session state is untouched), otherwise complete — and
thereby stop — the session. -/
def handleStuckScenario (env : TickEnv) (s : EngineState) : EngineState :=
  if 1 < env.historyLen then s else stopAutomation s

/-- `executePageActions` from `popup.js`: run the entry actions, compute
the available actions (empty → stuck path, without scheduling), otherwise
select and execute one action and schedule the next tick.  `.error`
models an error thrown out of the function (caught at the run-loop
boundary); `.ok` carries the selected action, if any. -/
def executePageActions (env : TickEnv) (cfg : PageConfig) (s : EngineState) :
    EngineState × Except String (Option Action) :=
  match
    (match cfg.entryActions with
     | some ea => executeActionSequence env.entryExec 0 ea
     | none => .ok .completed) with
  | .error e => (s, .error e)
  | .ok _ =>
    let avail := getAvailableActions (some cfg)
    if avail.isEmpty then (handleStuckScenario env s, .ok none)
    else
      match selectAction env.actionExec.cond env.draw avail with
      | some a =>
        match executeSelectedAction env.actionExec a s.metrics with
        | (m', some e) => ({ s with metrics := m' }, .error e)
        | (m', none) =>
          (scheduleNextExecution cfg env.stayDraw { s with metrics := m' },
           .ok (some a))
      | none => (scheduleNextExecution cfg env.stayDraw s, .ok none)

/-- What one `executeScenario` call did. -/
inductive TickOutcome where
  | skipped
  | completedSession
  | timedOutSession
  | pageConfigStuck
  | ranTick (selected : Option Action)
  | errorStopped (msg : String)
  | errorContinued (msg : String)

/-- `executeScenario` from `popup.js`, one tick of the run loop: return at
once when not running or paused; complete on goals met; time out; stuck
path when no page configuration exists; otherwise run the page actions,
any thrown error being caught at this boundary and routed through
`handleExecutionError` (fatal → stop, otherwise reschedule). -/
def executeScenario (env : TickEnv) (s : EngineState) : EngineState × TickOutcome :=
  if !s.isRunning || s.isPaused then (s, .skipped)
  else if env.goalsMet then (stopAutomation s, .completedSession)
  else if env.timedOut then (stopAutomation s, .timedOutSession)
  else
    match env.pageConfig with
    | none => (handleStuckScenario env s, .pageConfigStuck)
    | some cfg =>
      match executePageActions env cfg s with
      | (s', .ok sel) => (s', .ranTick sel)
      | (s', .error e) =>
        if shouldAbortOnError e then (stopAutomation s', .errorStopped e)
        else (scheduleNextExecution cfg env.stayDraw s', .errorContinued e)

/-! ## Element finder (`element-finder.js`) -/

/-- A page element: an identity plus its `textContent`. -/
structure Elem where
  id : ℕ
  text : String
  deriving DecidableEq

/-- The live page as the finder reads it: `querySelectorAll` for a
structural selector (in document order), `document.querySelectorAll('*')`,
attribute lookup, bounding-box centers, visibility and viewport
predicates, the finder's `lastFoundElements.get('current')`, the virtual
browser-back element and the `Math.random()` draw of `selectRandom`. -/
structure Dom where
  query : String → List Elem
  all : List Elem
  attr : Elem → String → Option String
  center : Elem → ℚ × ℚ
  visible : Elem → Bool
  inview : Elem → Bool
  lastFound : Option Elem
  browserBack : Elem
  rnd : ℚ

/-- Try to read `nth(<digits>)` at the head of the list: maximal digits
followed by a closing parenthesis. -/
def nthAt (l : List Char) : Option ℕ :=
  if begWith l ('n' :: 't' :: 'h' :: '(' :: []) then
    let rest := l.drop 4
    let ds := rest.takeWhile Char.isDigit
    if ds.isEmpty then none
    else if (rest.drop ds.length).head? = some ')' then some (digitsToNat ds)
    else none
  else none

/-- The search of `/nth\((\d+)\)/`: the leftmost occurrence anywhere in the
modifier. -/
def nthSearch : List Char → Option ℕ
  | [] => none
  | c :: t =>
    match nthAt (c :: t) with
    | some n => some n
    | none => nthSearch t

/-- The default branch of `handleSpecialSelectors`: the regex is consulted
only when the modifier starts with `nth(`. -/
def nthLookup (modL : List Char) : Option ℕ :=
  if begWith modL ('n' :: 't' :: 'h' :: '(' :: []) then nthSearch modL else none

/-- `elements[i] || null` for a JavaScript index that may be `-1`
(`nth(0)` yields index `-1`). -/
def elemAtZ (l : List Elem) (i : ℤ) : Option Elem :=
  if i < 0 then none else l.get? i.toNat

/-- `selectRandom`: `elements[Math.floor(Math.random() * length)]`. -/
def pickRandom (rnd : ℚ) (l : List Elem) : Option Elem :=
  if l.isEmpty then none else l.get? (Int.toNat ⌊rnd * l.length⌋)

/-- `handleSpecialSelectors` from `element-finder.js`: split the selector
at `:`, query the base, and dispatch on the modifier; an unknown modifier
falls through to `elements[0]` unless it starts with `nth(` and the
`nth(\d+)` pattern matches.  The function is only reached for selectors
containing `:`, so the split always has a second part; the impossible
missing-modifier case is mapped to `none` (in JavaScript it would throw,
which the strategy loop treats the same way). -/
def handleSpecialSelectors (dom : Dom) (sel : String) : Option Elem :=
  let parts := splitOnChar ':' sel.data
  let base : String := ⟨parts.headD []⟩
  let elements := dom.query base
  if elements.isEmpty then none
  else
    match parts.get? 1 with
    | none => none
    | some modL =>
      if modL = ('r' :: 'a' :: 'n' :: 'd' :: 'o' :: 'm' :: []) then
        pickRandom dom.rnd elements
      else if modL = ('v' :: 'i' :: 's' :: 'i' :: 'b' :: 'l' :: 'e' :: []) then
        elements.find? dom.visible
      else if modL = ('i' :: 'n' :: 'v' :: 'i' :: 'e' :: 'w' :: 'p' :: 'o' :: 'r' :: 't' :: []) then
        elements.find? dom.inview
      else if modL = ('f' :: 'i' :: 'r' :: 's' :: 't' :: []) then
        elements.head?
      else if modL = ('l' :: 'a' :: 's' :: 't' :: []) then
        elements.getLast?
      else
        match nthLookup modL with
        | some n => elemAtZ elements ((n : ℤ) - 1)
        | none => elements.head?

/-- The whole-selector alias table of the finder's constructor.  Each
`:`-token handler is invoked with no argument, so its element list
defaults to `[]` and it returns `null`; `current` returns the last found
element and `browser_back` the virtual back element. -/
def runAlias (dom : Dom) (sel : String) : Option (Option Elem) :=
  if sel = ":random" ∨ sel = ":visible" ∨ sel = ":inviewport" ∨ sel = ":nth" ∨
      sel = ":first" ∨ sel = ":last" then
    some none
  else if sel = "current" then some dom.lastFound
  else if sel = "browser_back" then some (some dom.browserBack)
  else none

/-- `findByDirectSelector` from `element-finder.js`: alias table first,
then the special `base:modifier` handling for selectors containing `:`,
then a plain structural query taking `elements[0]`. -/
def findByDirectSelector (dom : Dom) (sel : String) : Option Elem :=
  match runAlias dom sel with
  | some r => r
  | none =>
    if strIncludes sel ":" then handleSpecialSelectors dom sel
    else (dom.query sel).head?

/-- `findByFallbackSelectors` from `element-finder.js`: a comma-separated
selector is split, each part trimmed and queried left to right, the first
match winning; a selector without a comma yields nothing here. -/
def findByFallbackSelectors (dom : Dom) (sel : String) : Option Elem :=
  if strIncludes sel "," then
    let subs := (splitOnChar ',' sel.data).map fun l => (⟨trimL l⟩ : String)
    (subs.map fun sub => (dom.query sub).head?).foldr
      (fun o acc => match o with | some e => some e | none => acc) none
  else none

/-- Try to read `text:"<content>"` at the head of the list: the capture is
the maximal non-empty run of non-quote characters followed by the closing
quote. -/
def textPatternAt (l : List Char) : Option (List Char) :=
  if begWith l ('t' :: 'e' :: 'x' :: 't' :: ':' :: '"' :: []) then
    let rest := l.drop 6
    let cap := rest.takeWhile fun c => !(c = '"')
    if cap.isEmpty then none
    else if (rest.drop cap.length).head? = some '"' then some cap
    else none
  else none

/-- The search of `/text:"([^"]+)"/`: leftmost occurrence. -/
def textPattern : List Char → Option (List Char)
  | [] => none
  | c :: t =>
    match textPatternAt (c :: t) with
    | some cap => some cap
    | none => textPattern t

/-- `findByTextContent` from `element-finder.js`: extract the quoted
pattern, lower-case it, and scan all elements twice — first returning an
element whose (lower-cased) text contains the pattern and trims to exactly
it, then any element whose text contains it.  An empty `textContent` is
falsy and skipped. -/
def findByTextContent (dom : Dom) (sel : String) : Option Elem :=
  match textPattern sel.data with
  | none => none
  | some cap =>
    let searchText := toLowerL cap
    match
      dom.all.find? fun e =>
        let tc := toLowerL e.text.data
        !tc.isEmpty && occursIn searchText tc && decide (trimL tc = searchText) with
    | some e => some e
    | none =>
      dom.all.find? fun e =>
        let tc := toLowerL e.text.data
        !tc.isEmpty && occursIn searchText tc

/-- Try to read `[<attr>="<value>"]` at the head of the list, following
`/\[([^=]+)\*?="([^"]+)"\]/`: the attribute capture is everything between
`[` and the `=` (a trailing `*` stays inside the capture, as with the
greedy `[^=]+`), the value everything between the quotes. -/
def attrPatternAt (l : List Char) : Option (String × String) :=
  match l with
  | '[' :: rest =>
    let a := rest.takeWhile fun c => !(c = '=')
    if a.isEmpty then none
    else
      match rest.drop a.length with
      | '=' :: '"' :: r2 =>
        let v := r2.takeWhile fun c => !(c = '"')
        if v.isEmpty then none
        else
          match r2.drop v.length with
          | '"' :: ']' :: _ => some (⟨a⟩, ⟨v⟩)
          | _ => none
      | _ => none
  | _ => none

/-- The search of the attribute regex: leftmost occurrence. -/
def attrPattern : List Char → Option (String × String)
  | [] => none
  | c :: t =>
    match attrPatternAt (c :: t) with
    | some r => some r
    | none => attrPattern t

/-- `findByAttributes` from `element-finder.js`: parse the attribute
pattern, decide substring vs exact match from `selector.includes('*=')`,
and return the first element whose (truthy) attribute value matches. -/
def findByAttributes (dom : Dom) (sel : String) : Option Elem :=
  match attrPattern sel.data with
  | none => none
  | some (attrName, value) =>
    let looseMatch := strIncludes sel "*="
    dom.all.find? fun e =>
      match dom.attr e attrName with
      | none => false
      | some av =>
        decide (av ≠ "") &&
          (if looseMatch then occursIn value.data av.data else decide (av = value))

/-- Try to read `position(<x>,<y>[,<tol>])` at the head of the list. -/
def posPatternAt (l : List Char) : Option (ℕ × ℕ × Option ℕ) :=
  if begWith l ('p' :: 'o' :: 's' :: 'i' :: 't' :: 'i' :: 'o' :: 'n' :: '(' :: []) then
    let r1 := l.drop 9
    let d1 := r1.takeWhile Char.isDigit
    if d1.isEmpty then none
    else
      match r1.drop d1.length with
      | ',' :: r2 =>
        let d2 := r2.takeWhile Char.isDigit
        if d2.isEmpty then none
        else
          match r2.drop d2.length with
          | ')' :: _ => some (digitsToNat d1, digitsToNat d2, none)
          | ',' :: r3 =>
            let d3 := r3.takeWhile Char.isDigit
            if d3.isEmpty then none
            else
              match r3.drop d3.length with
              | ')' :: _ => some (digitsToNat d1, digitsToNat d2, some (digitsToNat d3))
              | _ => none
          | _ => none
      | _ => none
  else none

/-- The search of the position regex: leftmost occurrence. -/
def posPattern : List Char → Option (ℕ × ℕ × Option ℕ)
  | [] => none
  | c :: t =>
    match posPatternAt (c :: t) with
    | some r => some r
    | none => posPattern t

/-- `findByPosition` from `element-finder.js`: parse the coordinates,
default the tolerance with `parseInt(...) || 10` (also mapping an explicit
`0` to `10`), and return the first element whose bounding-box center lies
within the tolerance of the point. -/
def findByPosition (dom : Dom) (sel : String) : Option Elem :=
  match posPattern sel.data with
  | none => none
  | some (x, y, tolOpt) =>
    let tol : ℚ :=
      match tolOpt with
      | none => 10
      | some t => if t = 0 then 10 else (t : ℚ)
    dom.all.find? fun e =>
      decide (|((dom.center e).1 - (x : ℚ))| ≤ tol) &&
        decide (|((dom.center e).2 - (y : ℚ))| ≤ tol)

/-- The strategy array of `findElementBySelector`, in source order. -/
def strategyResults (dom : Dom) (sel : String) : List (Option Elem) :=
  [findByDirectSelector dom sel,
   findByFallbackSelectors dom sel,
   findByTextContent dom sel,
   findByAttributes dom sel,
   findByPosition dom sel]

/-- The strategy loop: each strategy is tried in order, the first element
returned wins (a strategy error in JavaScript is caught and treated as no
result; the embedded strategies are total). -/
def firstHit : List (Option Elem) → Option Elem
  | [] => none
  | some e :: _ => some e
  | none :: t => firstHit t

/-- `findElementBySelector` from `element-finder.js`: direct match,
comma-separated fallback list, text-content match, attribute match,
geometric match — first success wins, `none` when all fail. -/
def findElementBySelector (dom : Dom) (sel : String) : Option Elem :=
  firstHit (strategyResults dom sel)

/-! ## Configuration processing (`ConfigManager.processAction`) -/

/-- A raw configured action as `processAction` receives it: every field may
be absent. -/
structure RawAction where
  name : Option String
  probability : Option ℚ
  impact : Option (List (String × ℚ))
  conditions : Option Conditions
  micro_sequence : Option (List MicroAction)

/-- A processed action: the spread `{probability: 0.5, impact: {},
conditions: {}, micro_sequence: [], ...action}` has filled every
defaultable field. -/
structure DoneAction where
  name : Option String
  probability : ℚ
  impact : List (String × ℚ)
  conditions : Conditions
  micro_sequence : List MicroAction

/-- `ConfigManager.processAction` from the configuration manager: default a
missing probability to `0.5`, then clamp an out-of-range value with
`Math.max(0, Math.min(1, p))`.  (`processMicroAction` only fills default
`duration`/`speed`/`pattern` fields of micro actions, which carry no data
in this model.) -/
def processAction (a : RawAction) : DoneAction :=
  let p0 : ℚ :=
    match a.probability with
    | none => 1 / 2
    | some p => p
  { name := a.name
    probability := if p0 < 0 ∨ 1 < p0 then max 0 (min 1 p0) else p0
    impact := a.impact.getD []
    conditions := a.conditions.getD ⟨none, none, none, none, none⟩
    micro_sequence := a.micro_sequence.getD [] }

/-! ## Theorems -/

/-- Core bound for a single processed action. -/
theorem processAction_prob_core (a : RawAction) :
    0 ≤ (processAction a).probability ∧ (processAction a).probability ≤ 1 := by
  unfold processAction
  rcases a.probability with _ | p
  · norm_num
  · simp only
    by_cases hp : p < 0 ∨ 1 < p
    · rw [if_pos hp]
      refine ⟨le_max_left 0 _, max_le (by norm_num) (min_le_left 1 p)⟩
    · rw [if_neg hp]
      push_neg at hp
      exact ⟨hp.1, hp.2⟩

/-- C10: after configuration processing, every action of a page's
navigation and non-navigation lists carries a probability in `[0, 1]`:
`processAction` defaults a missing probability to `0.5` and clamps an
out-of-range value to the nearest bound. -/
theorem claim10_processed_probability_in_unit_interval
    (navigation nonNavigation : List RawAction) (pa : DoneAction)
    (h : pa ∈ nonNavigation.map processAction ++ navigation.map processAction) :
    0 ≤ pa.probability ∧ pa.probability ≤ 1 := by
  rcases List.mem_append.1 h with h' | h' <;>
    · rcases List.mem_map.1 h' with ⟨a, _, rfl⟩
      exact processAction_prob_core a

/-- C10 witness: a raw action with probability `7` is clamped into the
unit interval. -/
theorem claim10_witness :
    0 ≤ (processAction ⟨none, some 7, none, none, none⟩).probability ∧
      (processAction ⟨none, some 7, none, none, none⟩).probability ≤ 1 :=
  claim10_processed_probability_in_unit_interval []
    [⟨none, some 7, none, none, none⟩] _
    (List.mem_append_left _ (List.mem_map_of_mem _ (List.Mem.head _)))

/-- C4: a single action's conditions are checked in the source order
time-on-page bounds, element-exists, element-absent, goal-progress; the
action is eligible exactly when no check fails; a failing time check
decides the result without consulting the element or metric oracles; and
the goal check is what decides once every earlier check passes. -/
theorem claim4_condition_order (env : CondEnv) (c : Conditions) :
    (checkActionConditions env c = true ↔
      minTimeFails env c = false ∧ maxTimeFails env c = false ∧
      elemExistsFails env c = false ∧ elemAbsentFails env c = false ∧
      goalFails env c = false) ∧
    (minTimeFails env c = true →
      ∀ f g, checkActionConditions ⟨env.timeOnPage, g, f⟩ c = false) ∧
    (maxTimeFails env c = true →
      ∀ f g, checkActionConditions ⟨env.timeOnPage, g, f⟩ c = false) ∧
    (minTimeFails env c = false → maxTimeFails env c = false →
      elemExistsFails env c = false → elemAbsentFails env c = false →
      checkActionConditions env c = !goalFails env c) := by
  have hmin : ∀ f g, minTimeFails ⟨env.timeOnPage, g, f⟩ c = minTimeFails env c := by
    intro f g; rfl
  have hmax : ∀ f g, maxTimeFails ⟨env.timeOnPage, g, f⟩ c = maxTimeFails env c := by
    intro f g; rfl
  refine ⟨?_, ?_, ?_, ?_⟩
  · unfold checkActionConditions
    rcases h1 : minTimeFails env c <;> rcases h2 : maxTimeFails env c <;>
      rcases h3 : elemExistsFails env c <;> rcases h4 : elemAbsentFails env c <;>
      rcases h5 : goalFails env c <;> simp
  · intro h f g
    unfold checkActionConditions
    rw [hmin f g, h]
    simp
  · intro h f g
    unfold checkActionConditions
    rw [hmin f g, hmax f g, h]
    rcases minTimeFails env c <;> simp
  · intro h1 h2 h3 h4
    unfold checkActionConditions
    rw [h1, h2, h3, h4]
    rcases goalFails env c <;> simp

/-- C4 witness: with no failing earlier check, the condition check is the
negated goal check at a concrete state. -/
theorem claim4_witness :
    checkActionConditions ⟨0, fun _ => 0, fun _ => false⟩ ⟨none, none, none, none, none⟩ =
      !goalFails ⟨0, fun _ => 0, fun _ => false⟩ ⟨none, none, none, none, none⟩ :=
  (claim4_condition_order ⟨0, fun _ => 0, fun _ => false⟩
    ⟨none, none, none, none, none⟩).2.2.2 rfl rfl rfl rfl

/-- Following the spec's words, for comparison with the source embedding:
the time-on-page check fails exactly when the tracked time (milliseconds)
is below `minTimeOnPage` or above `maxTimeOnPage` taken as millisecond
values. -/
def msTimeFails (env : CondEnv) (c : Conditions) : Bool :=
  (match c.minTimeOnPage with
   | none => false
   | some v => decide (v ≠ 0) && decide (env.timeOnPage < v)) ||
  (match c.maxTimeOnPage with
   | none => false
   | some v => decide (v ≠ 0) && decide (env.timeOnPage > v))

/-- C5 counterexample: with `minTimeOnPage = 5` and `2000` ms on the page,
the code fails the check (it compares against `5 * 1000`), while under the
claim's millisecond reading (`2000 ≥ 5`) the check would pass — so the
bounds are not interpreted as milliseconds. -/
theorem claim5_counterexample :
    checkActionConditions ⟨2000, fun _ => 0, fun _ => false⟩
        ⟨some 5, none, none, none, none⟩ = false ∧
      msTimeFails ⟨2000, fun _ => 0, fun _ => false⟩
        ⟨some 5, none, none, none, none⟩ = false := by
  constructor
  · unfold checkActionConditions minTimeFails
    norm_num
  · unfold msTimeFails
    norm_num

/-- C5 (amended): `minTimeOnPage`/`maxTimeOnPage` are interpreted as
seconds — the check fails exactly when the tracked millisecond time is
below `minTimeOnPage * 1000` or above `maxTimeOnPage * 1000` (a zero bound
is falsy and skipped). -/
theorem claim5_time_bounds_seconds (env : CondEnv) (c : Conditions)
    (hex : c.elementExists = none) (hab : c.elementNotExists = none)
    (hgp : c.goalProgress = none) :
    checkActionConditions env c = false ↔
      (∃ v, c.minTimeOnPage = some v ∧ v ≠ 0 ∧ env.timeOnPage < v * 1000) ∨
      (∃ v, c.maxTimeOnPage = some v ∧ v ≠ 0 ∧ v * 1000 < env.timeOnPage) := by
  unfold checkActionConditions minTimeFails maxTimeFails elemExistsFails
    elemAbsentFails goalFails
  rw [hex, hab, hgp]
  rcases c.minTimeOnPage with _ | v <;> rcases c.maxTimeOnPage with _ | w
  · simp
  · by_cases hw0 : w = 0 <;> by_cases hwt : w * 1000 < env.timeOnPage <;>
      simp_all
  · by_cases hv0 : v = 0 <;> by_cases hvt : env.timeOnPage < v * 1000 <;>
      simp_all
  · by_cases hv0 : v = 0 <;> by_cases hvt : env.timeOnPage < v * 1000 <;>
      by_cases hw0 : w = 0 <;> by_cases hwt : w * 1000 < env.timeOnPage <;>
      simp_all

/-- C5 witness: the amended statement evaluated at the counterexample's
input — `2000` ms with a `minTimeOnPage` of `5` seconds fails the check. -/
theorem claim5_witness :
    checkActionConditions ⟨2000, fun _ => 0, fun _ => false⟩
      ⟨some 5, none, none, none, none⟩ = false :=
  (claim5_time_bounds_seconds ⟨2000, fun _ => 0, fun _ => false⟩
      ⟨some 5, none, none, none, none⟩ rfl rfl rfl).2
    (Or.inl ⟨5, rfl, by norm_num, by norm_num⟩)

/-- C7: errors are classified by a fixed fatal-substring list — a
micro-sequence only rethrows an error when `shouldAbortOnError` holds of
it, the run-loop boundary stops the session exactly when the (lower-cased)
message contains one of the fatal substrings, and a caught tick error
stops the session or continues to the next tick according to that same
classification. -/
theorem claim7_fatal_classification :
    (∀ (env : ExecEnv) (i : ℕ) (seq : List MicroAction) (e : String),
       executeActionSequence env i seq = .error e → shouldAbortOnError e = true) ∧
    (∀ msg : String,
       handleExecutionError msg = .stopSession ↔
         ∃ f ∈ fatalErrors, occursIn f.data (toLowerL msg.data) = true) ∧
    (∀ (env : TickEnv) (s : EngineState) (e : String),
       ((executeScenario env s).2 = .errorStopped e → shouldAbortOnError e = true) ∧
       ((executeScenario env s).2 = .errorContinued e → shouldAbortOnError e = false)) := by
  refine ⟨?_, ?_, ?_⟩
  · intro env i seq e h
    induction seq generalizing i with
    | nil => simp [executeActionSequence] at h
    | cons m rest ih =>
      rw [executeActionSequence] at h
      by_cases hf : (!(env.flagsAt i).1 || (env.flagsAt i).2) = true
      · rw [if_pos hf] at h; cases h
      · rw [if_neg hf] at h
        rcases hr : env.microResult i with e2 | u
        · simp only [hr] at h
          by_cases ha : shouldAbortOnError e2 = true
          · rw [if_pos ha] at h
            cases h
            exact ha
          · rw [if_neg ha] at h
            exact ih _ h
        · simp only [hr] at h
          exact ih _ h
  · intro msg
    unfold handleExecutionError shouldAbortOnError
    by_cases hd : (fatalErrors.any fun f => occursIn f.data (toLowerL msg.data)) = true
    · rw [if_pos hd]
      exact ⟨fun _ => List.any_eq_true.mp hd, fun _ => rfl⟩
    · rw [if_neg hd]
      constructor
      · intro h; exact absurd h (by simp)
      · intro hex; exact absurd (List.any_eq_true.mpr hex) hd
  · intro env s e
    unfold executeScenario
    by_cases h1 : (!s.isRunning || s.isPaused) = true
    · rw [if_pos h1]; exact ⟨fun h => (by cases h), fun h => (by cases h)⟩
    · rw [if_neg h1]
      by_cases h2 : env.goalsMet = true
      · rw [if_pos h2]; exact ⟨fun h => (by cases h), fun h => (by cases h)⟩
      · rw [if_neg h2]
        by_cases h3 : env.timedOut = true
        · rw [if_pos h3]; exact ⟨fun h => (by cases h), fun h => (by cases h)⟩
        · rw [if_neg h3]
          rcases hc : env.pageConfig with _ | cfg
          · exact ⟨fun h => (by cases h), fun h => (by cases h)⟩
          · rcases hp : executePageActions env cfg s with ⟨s', r⟩
            simp only [hp]
            rcases r with e' | sel
            · rcases hb : shouldAbortOnError e' with _ | _
              · refine ⟨fun h => ?_, fun h => ?_⟩
                · simp [hb] at h
                · have he : e' = e := by
                    simp [hb] at h
                    exact h
                  rw [← he]
                  exact hb
              · refine ⟨fun h => ?_, fun h => ?_⟩
                · have he : e' = e := by
                    simp [hb] at h
                    exact h
                  rw [← he]
                  exact hb
                · simp [hb] at h
            · exact ⟨fun h => (by cases h), fun h => (by cases h)⟩

/-- C7 witness: a message containing `Page_Crash` stops the session. -/
theorem claim7_witness :
    handleExecutionError "Page_Crash while clicking" = .stopSession :=
  (claim7_fatal_classification.2.1 "Page_Crash while clicking").mpr
    ⟨"page_crash", by decide, by decide⟩

/-- C8: `pause()` cancels any pending scheduled tick, and while paused no
tick runs and none is scheduled — `pauseAutomation` clears the timer (and
keeps the metrics), `executeScenario` returns at its flag check without
touching the state, and `scheduleNextExecution` returns without storing a
timer. -/
theorem claim8_pause_blocks_ticks :
    (∀ s : EngineState,
       (pauseAutomation s).executionTimer = none ∧
       (pauseAutomation s).isPaused = true ∧
       (pauseAutomation s).metrics = s.metrics) ∧
    (∀ (env : TickEnv) (s : EngineState), s.isPaused = true →
       executeScenario env s = (s, .skipped)) ∧
    (∀ (cfg : PageConfig) (d : ℚ) (s : EngineState), s.isPaused = true →
       scheduleNextExecution cfg d s = s) := by
  refine ⟨fun s => ⟨rfl, rfl, rfl⟩, ?_, ?_⟩
  · intro env s h
    unfold executeScenario
    rw [h]
    simp
  · intro cfg d s h
    unfold scheduleNextExecution
    rw [h]
    simp

/-- A paused engine state and a tick environment for exercising the pause
theorems. -/
def envC8 : TickEnv :=
  ⟨false, false, none, 0, 0, 0,
   ⟨fun _ => (true, true), fun _ => .ok (), ⟨0, fun _ => 0, fun _ => false⟩⟩,
   ⟨fun _ => (true, true), fun _ => .ok (), ⟨0, fun _ => 0, fun _ => false⟩⟩⟩

/-- C8 witness: a paused running session's tick is skipped with the state
untouched. -/
theorem claim8_witness :
    executeScenario envC8 ⟨true, true, none, []⟩ = (⟨true, true, none, []⟩, .skipped) :=
  claim8_pause_blocks_ticks.2.1 envC8 ⟨true, true, none, []⟩ rfl

/-- A sequence environment in which the session is already paused at the
check before the first step. -/
def envC1 : ExecEnv :=
  ⟨fun _ => (true, true), fun _ => .ok (), ⟨0, fun _ => 0, fun _ => false⟩⟩

/-- An action with a non-empty micro sequence and a metric impact. -/
def actC1 : Action :=
  ⟨"read_post", 1, none, some [("visits", 1)], [⟨"click"⟩], none⟩

/-- C1 counterexample: with the pause flag set before the first step, the
micro sequence breaks out early (`.brokeEarly`), yet `executeSelectedAction`
still applies the action's impact to the tracker — so impact is not
restricted to fully-completed sequences. -/
theorem claim1_counterexample :
    executeActionSequence envC1 0 actC1.microSequence = .ok .brokeEarly ∧
    executeSelectedAction envC1 actC1 [] = ([("visits", 1)], none) ∧
    ([("visits", (1 : ℚ))] : Metrics) ≠ ([] : Metrics) := by
  exact ⟨rfl, rfl, by decide⟩

/-- C1 (amended): the impact is applied exactly when the micro-sequence
call returns without throwing — a fatal micro-action error propagates and
prevents it, while an early pause/stop break (and any non-fatal,
logged-and-skipped micro failure) still ends with the impact applied. -/
theorem claim1_impact_iff_sequence_returns (env : ExecEnv) (a : Action) (m : Metrics)
    (hc : (match a.conditions with
           | some c => checkActionConditions env.cond c
           | none => true) = true) :
    (∀ o, executeActionSequence env 0 a.microSequence = .ok o →
       executeSelectedAction env a m = (applyImpact m a.impact, none)) ∧
    (∀ e, executeActionSequence env 0 a.microSequence = .error e →
       executeSelectedAction env a m = (m, some e)) := by
  have hcond : (match a.conditions with
                | some c => !checkActionConditions env.cond c
                | none => false) = false := by
    rcases hac : a.conditions with _ | c
    · rfl
    · rw [hac] at hc
      simp at hc
      simp [hc]
  constructor
  · intro o ho
    unfold executeSelectedAction
    rcases hseq : a.microSequence with _ | ⟨m1, rest⟩
    · simp [hcond, hseq]
    · rw [hseq] at ho
      simp [hcond, hseq, ho]
  · intro e he
    unfold executeSelectedAction
    rcases hseq : a.microSequence with _ | ⟨m1, rest⟩
    · rw [hseq] at he
      simp [executeActionSequence] at he
    · rw [hseq] at he
      simp [hcond, hseq, he]

/-- A sequence environment with the session running and every micro action
succeeding. -/
def envC1ok : ExecEnv :=
  ⟨fun _ => (true, false), fun _ => .ok (), ⟨0, fun _ => 0, fun _ => false⟩⟩

/-- C1 witness: a successfully completed one-step sequence ends with the
impact applied. -/
theorem claim1_witness :
    executeSelectedAction envC1ok actC1 [] = (applyImpact [] actC1.impact, none) :=
  (claim1_impact_iff_sequence_returns envC1ok actC1 [] rfl).1 .completed rfl

/-- `totalWeight` over a cons. -/
theorem totalWeight_cons (a : Action) (t : List Action) :
    totalWeight (a :: t) = a.probability + totalWeight t := by
  simp [totalWeight]

/-- A list of positive-weight actions has a nonnegative total weight. -/
theorem totalWeight_nonneg (l : List Action) (h : ∀ x ∈ l, 0 < x.probability) :
    0 ≤ totalWeight l :=
  List.sum_nonneg fun x hx => by
    rcases List.mem_map.1 hx with ⟨a, ha, rfl⟩
    exact (h a ha).le

/-- The subtraction walk stops at the first index whose weight prefix sum
reaches the drawn value, provided the value does not exceed the total. -/
theorem selectWalk_first : ∀ (l : List Action) (r : ℚ), l ≠ [] → r ≤ totalWeight l →
    ∃ i, ∃ h : i < l.length, selectWalk r l = some (l.get ⟨i, h⟩) ∧
      r - totalWeight (l.take (i + 1)) ≤ 0 ∧
      ∀ j < i, 0 < r - totalWeight (l.take (j + 1)) := by
  intro l
  induction l with
  | nil => intro r h; exact absurd rfl h
  | cons a t ih =>
    intro r _ hr
    by_cases hca : r - a.probability ≤ 0
    · refine ⟨0, Nat.succ_pos _, ?_, ?_, ?_⟩
      · simp [selectWalk, hca]
      · simpa [totalWeight] using hca
      · intro j hj
        exact absurd hj (Nat.not_lt_zero j)
    · push_neg at hca
      have ht : t ≠ [] := by
        rintro rfl
        rw [totalWeight_cons] at hr
        simp [totalWeight] at hr
        linarith
      have hr' : r - a.probability ≤ totalWeight t := by
        rw [totalWeight_cons] at hr
        linarith
      obtain ⟨i, hlen, hw, hle, hgt⟩ := ih (r - a.probability) ht hr'
      refine ⟨i + 1, Nat.succ_lt_succ hlen, ?_, ?_, ?_⟩
      · rw [selectWalk, if_neg (not_le.mpr (by linarith))]
        exact hw
      · rw [List.take_succ_cons, totalWeight_cons]
        linarith
      · intro j hj
        rcases j with _ | k
        · simpa [totalWeight] using hca
        · rw [List.take_succ_cons, totalWeight_cons]
          have := hgt k (Nat.lt_of_succ_lt_succ hj)
          linarith

/-- `selectAction` unfolded to its decision tree. -/
theorem selectAction_eq (env : CondEnv) (draw : ℚ) (available : List Action) :
    selectAction env draw available =
      if filterByConditions env available = [] then none
      else
        match selectWalk (draw * totalWeight (filterByConditions env available))
            (filterByConditions env available) with
        | some a => some a
        | none => (filterByConditions env available).head? := by
  unfold selectAction
  rcases h : filterByConditions env available with _ | ⟨b, t⟩ <;> simp [h]

/-- C2: on a non-empty eligible list with positive weights and a draw in
`[0, 1)`, selection returns the first action at which the running value
`draw * totalWeight` minus the weight prefix sum reaches `≤ 0` (so it never
returns `null`); and when the walk does run off the list, the fallback
returns the first element of the eligible list. -/
theorem claim2_weighted_selection :
    (∀ (env : CondEnv) (draw : ℚ) (available : List Action),
       filterByConditions env available ≠ [] →
       (∀ a ∈ filterByConditions env available, 0 < a.probability) →
       0 ≤ draw → draw < 1 →
       ∃ i, ∃ h : i < (filterByConditions env available).length,
         selectAction env draw available =
           some ((filterByConditions env available).get ⟨i, h⟩) ∧
         draw * totalWeight (filterByConditions env available) -
           totalWeight ((filterByConditions env available).take (i + 1)) ≤ 0 ∧
         ∀ j < i, 0 < draw * totalWeight (filterByConditions env available) -
           totalWeight ((filterByConditions env available).take (j + 1))) ∧
    (∀ (env : CondEnv) (draw : ℚ) (available : List Action),
       filterByConditions env available ≠ [] →
       selectWalk (draw * totalWeight (filterByConditions env available))
           (filterByConditions env available) = none →
       selectAction env draw available = (filterByConditions env available).head?) := by
  constructor
  · intro env draw available hne hpos h0 h1
    have hT : 0 ≤ totalWeight (filterByConditions env available) :=
      totalWeight_nonneg _ hpos
    have hr : draw * totalWeight (filterByConditions env available) ≤
        totalWeight (filterByConditions env available) :=
      mul_le_of_le_one_left hT (le_of_lt h1)
    obtain ⟨i, hlen, hw, hle, hgt⟩ := selectWalk_first _ _ hne hr
    refine ⟨i, hlen, ?_, hle, hgt⟩
    rw [selectAction_eq, if_neg hne, hw]
  · intro env draw available hne hwalk
    rw [selectAction_eq, if_neg hne, hwalk]

/-- Two condition-free unit-weight actions. -/
def actA : Action := ⟨"alpha", 1, none, none, [], none⟩

/-- See `actA`. -/
def actB : Action := ⟨"beta", 1, none, none, [], none⟩

/-- A condition environment with nothing on the page. -/
def envC2 : CondEnv := ⟨0, fun _ => 0, fun _ => false⟩

/-- C2 counterexample: when the subtraction walk does complete without the
running value reaching `≤ 0` (the state the claim attributes to
floating-point edge cases), the fallback returns the FIRST element of the
eligible list — `validActions[0]` — and not the last one: with two
unit-weight actions and a drawn value beyond the total, selection returns
`actA` while the last element is `actB`. -/
theorem claim2_counterexample :
    selectWalk (2 * totalWeight [actA, actB]) [actA, actB] = none ∧
    selectAction envC2 2 [actA, actB] = some actA ∧
    [actA, actB].getLast? = some actB ∧ actA ≠ actB := by
  have hf : filterByConditions envC2 [actA, actB] = [actA, actB] := rfl
  have h2 : totalWeight [actA, actB] = 2 := by
    norm_num [totalWeight, actA, actB]
  have hw : selectWalk (2 * totalWeight [actA, actB]) [actA, actB] = none := by
    rw [h2]
    norm_num [selectWalk, actA, actB]
  refine ⟨hw, ?_, rfl, by decide⟩
  rw [selectAction_eq, hf, if_neg (by simp), hw]
  rfl

/-- C2 witness: a singleton eligible list with weight 1 and draw 0 — the
walk stops at index 0 and that action is selected. -/
theorem claim2_witness :
    ∃ i, ∃ h : i < (filterByConditions envC2 [actA]).length,
      selectAction envC2 0 [actA] =
        some ((filterByConditions envC2 [actA]).get ⟨i, h⟩) ∧
      0 * totalWeight (filterByConditions envC2 [actA]) -
        totalWeight ((filterByConditions envC2 [actA]).take (i + 1)) ≤ 0 ∧
      ∀ j < i, 0 < 0 * totalWeight (filterByConditions envC2 [actA]) -
        totalWeight ((filterByConditions envC2 [actA]).take (j + 1)) :=
  claim2_weighted_selection.1 envC2 0 [actA] (by decide) (by decide)
    (by decide) (by decide)

/-- A time string without an `s` (hence also without `ms`) keeps its
parsed value: the default unit is milliseconds. -/
theorem parseTimeValue_noUnit {l : List Char} {a : ℚ}
    (h : parseFloatL l = some a)
    (hms : occursIn ('m' :: 's' :: []) l = false)
    (hs : occursIn ('s' :: []) l = false) :
    parseTimeValue l = some a := by
  simp [parseTimeValue, h, hms, hs]

/-- A time string containing `s` but not `ms` is scaled by 1000. -/
theorem parseTimeValue_secs {l : List Char} {b : ℚ}
    (h : parseFloatL l = some b)
    (hms : occursIn ('m' :: 's' :: []) l = false)
    (hs : occursIn ('s' :: []) l = true) :
    parseTimeValue l = some (b * 1000) := by
  simp [parseTimeValue, h, hms, hs]

/-- A range duration string samples `rand * (max - min) + min`. -/
theorem parseDuration_eval {s : String} {minL maxL : List Char} {mn mx rand : ℚ}
    (hdash : strIncludes s "-" = true)
    (hsplit : splitOnChar '-' s.data = [minL, maxL])
    (h1 : parseTimeValue minL = some mn)
    (h2 : parseTimeValue maxL = some mx) :
    parseDuration s rand = some (rand * (mx - mn) + mn) := by
  simp [parseDuration, hdash, hsplit, h1, h2]

/-- `parseFloat` on the string `2`. -/
theorem parseFloat_digit2 : parseFloatL ('2' :: []) = some 2 := by
  have h : digitsToNat ('2' :: []) = 2 := by decide
  show some ((digitsToNat ('2' :: []) : ℚ) + 0) = some 2
  rw [h]
  norm_num

/-- `parseFloat` on the string `3s`. -/
theorem parseFloat_digit3s : parseFloatL ('3' :: 's' :: []) = some 3 := by
  have h : digitsToNat ('3' :: []) = 3 := by decide
  show some ((digitsToNat ('3' :: []) : ℚ) + 0) = some 3
  rw [h]
  norm_num

/-- C3 counterexample: for the range spec `2-3s` the minimum part `2`
carries no unit and defaults to milliseconds, so the draw `0` samples `2`
ms — far below the `a * 1000 = 2000` lower bound the claim asserts. -/
theorem claim3_counterexample :
    parseDuration "2-3s" 0 = some 2 ∧ ¬((2 : ℚ) * 1000 ≤ 2) := by
  have htv1 : parseTimeValue ('2' :: []) = some 2 :=
    parseTimeValue_noUnit parseFloat_digit2 (by decide) (by decide)
  have htv2 : parseTimeValue ('3' :: 's' :: []) = some (3 * 1000) :=
    parseTimeValue_secs parseFloat_digit3s (by decide) (by decide)
  have hd : parseDuration "2-3s" 0 = some (0 * ((3 : ℚ) * 1000 - 2) + 2) :=
    parseDuration_eval (by decide) (by decide) htv1 htv2
  constructor
  · rw [hd]
    norm_num
  · norm_num

/-- C3 (amended): for a range spec whose minimum part parses as a bare
number `a` (no unit, hence milliseconds) and whose maximum part is `b`
seconds, the raw sampled value before jitter is
`rand * (b * 1000 - a) + a`, which lies in `[a, b * 1000]` — the lower
bound is `a`, not `a * 1000`. -/
theorem claim3_range_sample (s : String) (minL maxL : List Char) (a b rand : ℚ)
    (hdash : strIncludes s "-" = true)
    (hsplit : splitOnChar '-' s.data = [minL, maxL])
    (hmina : parseFloatL minL = some a)
    (hminms : occursIn ('m' :: 's' :: []) minL = false)
    (hmins : occursIn ('s' :: []) minL = false)
    (hmaxb : parseFloatL maxL = some b)
    (hmaxms : occursIn ('m' :: 's' :: []) maxL = false)
    (hmaxs : occursIn ('s' :: []) maxL = true)
    (ha : 0 ≤ a) (hab : a ≤ b) (hr0 : 0 ≤ rand) (hr1 : rand < 1) :
    parseDuration s rand = some (rand * (b * 1000 - a) + a) ∧
    a ≤ rand * (b * 1000 - a) + a ∧ rand * (b * 1000 - a) + a ≤ b * 1000 := by
  have h1 : parseTimeValue minL = some a :=
    parseTimeValue_noUnit hmina hminms hmins
  have h2 : parseTimeValue maxL = some (b * 1000) :=
    parseTimeValue_secs hmaxb hmaxms hmaxs
  have hM : a ≤ b * 1000 := by nlinarith
  refine ⟨parseDuration_eval hdash hsplit h1 h2, ?_, ?_⟩
  · nlinarith
  · nlinarith [mul_nonneg (by linarith : (0 : ℚ) ≤ 1 - rand)
      (by linarith : (0 : ℚ) ≤ b * 1000 - a)]

/-- C3 witness: the amended statement at `2-3s` with draw `0`. -/
theorem claim3_witness :
    parseDuration "2-3s" 0 = some (0 * ((3 : ℚ) * 1000 - 2) + 2) ∧
    (2 : ℚ) ≤ 0 * ((3 : ℚ) * 1000 - 2) + 2 ∧
    0 * ((3 : ℚ) * 1000 - 2) + 2 ≤ (3 : ℚ) * 1000 :=
  claim3_range_sample "2-3s" ('2' :: []) ('3' :: 's' :: []) 2 3 0
    (by decide) (by decide) parseFloat_digit2 (by decide) (by decide)
    parseFloat_digit3s (by decide) (by decide)
    (by decide) (by decide) (by decide) (by decide)

/-- C6: a selector matched by both the direct structural strategy and the
text-content strategy resolves to the direct strategy's element, because
`findElementBySelector` tries direct match, comma-separated fallback list,
text-content match, attribute match and geometric match in that fixed
order, the first strategy yielding an element winning. -/
theorem claim6_direct_first (dom : Dom) (sel : String) (e1 e2 : Elem)
    (hd : findByDirectSelector dom sel = some e1)
    (_ht : findByTextContent dom sel = some e2) :
    findElementBySelector dom sel = some e1 ∧
    ∀ (d : Dom) (s : String),
      findElementBySelector d s =
        (match findByDirectSelector d s with
         | some e => some e
         | none =>
           match findByFallbackSelectors d s with
           | some e => some e
           | none =>
             match findByTextContent d s with
             | some e => some e
             | none =>
               match findByAttributes d s with
               | some e => some e
               | none => findByPosition d s) := by
  constructor
  · simp [findElementBySelector, strategyResults, firstHit, hd]
  · intro d s
    unfold findElementBySelector strategyResults firstHit
    rcases findByDirectSelector d s with _ | x1 <;>
      rcases findByFallbackSelectors d s with _ | x2 <;>
      rcases findByTextContent d s with _ | x3 <;>
      rcases findByAttributes d s with _ | x4 <;>
      rcases findByPosition d s with _ | x5 <;>
      rfl

/-- A page with one `<text>` element (matched structurally) and a separate
element whose text content is `hi`. -/
def dom6 : Dom :=
  { query := fun s => if s = "text" then [⟨1, "x"⟩] else []
    all := [⟨2, "hi"⟩]
    attr := fun _ _ => none
    center := fun _ => (0, 0)
    visible := fun _ => false
    inview := fun _ => false
    lastFound := none
    browserBack := ⟨0, "back"⟩
    rnd := 0 }

/-- C6 witness: the selector `text:"hi"` is matched by the direct strategy
(querying the tag `text`) and by the text-content strategy (an element
whose text is `hi`); resolution returns the direct strategy's element. -/
theorem claim6_witness :
    findElementBySelector dom6 "text:\"hi\"" = some ⟨1, "x"⟩ :=
  (claim6_direct_first dom6 "text:\"hi\"" ⟨1, "x"⟩ ⟨2, "hi"⟩
    (by decide) (by decide)).1

/-- The exact reserved modifier form `nth(<digits>)` the claim names. -/
def isNthNForm (s : String) : Bool :=
  begWith s.data ('n' :: 't' :: 'h' :: '(' :: []) &&
    (let rest := s.data.drop 4
     let ds := rest.takeWhile Char.isDigit
     !ds.isEmpty && decide (rest = ds ++ (')' :: [])))

/-- A page with two `div` elements. -/
def dom9 : Dom :=
  { query := fun s => if s = "div" then [⟨1, ""⟩, ⟨2, ""⟩] else []
    all := []
    attr := fun _ _ => none
    center := fun _ => (0, 0)
    visible := fun _ => false
    inview := fun _ => false
    lastFound := none
    browserBack := ⟨0, "back"⟩
    rnd := 0 }

/-- C9 counterexample: the modifier `nth(2)x` is none of the reserved
modifiers and not of the form `nth(n)`, yet resolution of `div:nth(2)x`
returns the SECOND `div`, not the first — the default branch still applies
the embedded `nth(\d+)` match when the modifier merely starts with
`nth(`. -/
theorem claim9_counterexample :
    (∀ m ∈ (["random", "visible", "inviewport", "first", "last"] : List String),
       ("nth(2)x" : String) ≠ m) ∧
    isNthNForm "nth(2)x" = false ∧
    findElementBySelector dom9 "div:nth(2)x" = some ⟨2, ""⟩ ∧
    (dom9.query "div").head? = some ⟨1, ""⟩ ∧
    (⟨2, ""⟩ : Elem) ≠ ⟨1, ""⟩ := by
  refine ⟨by decide, by decide, by decide, rfl, by decide⟩

/-- C9 (amended): for a selector `base:modifier` whose modifier is none of
`random`, `visible`, `inviewport`, `first`, `last` and for which the
`nth(` lookup fails (it does not start with `nth(`, or the `nth(\d+)`
pattern does not match), resolution silently returns the first element
matching the base selector. -/
theorem claim9_unknown_modifier_first (dom : Dom) (sel : String)
    (baseL modL : List Char)
    (hsplit : splitOnChar ':' sel.data = [baseL, modL])
    (hne : dom.query ⟨baseL⟩ ≠ [])
    (h1 : modL ≠ ('r' :: 'a' :: 'n' :: 'd' :: 'o' :: 'm' :: []))
    (h2 : modL ≠ ('v' :: 'i' :: 's' :: 'i' :: 'b' :: 'l' :: 'e' :: []))
    (h3 : modL ≠ ('i' :: 'n' :: 'v' :: 'i' :: 'e' :: 'w' :: 'p' :: 'o' :: 'r' :: 't' :: []))
    (h4 : modL ≠ ('f' :: 'i' :: 'r' :: 's' :: 't' :: []))
    (h5 : modL ≠ ('l' :: 'a' :: 's' :: 't' :: []))
    (h6 : nthLookup modL = none) :
    handleSpecialSelectors dom sel = (dom.query ⟨baseL⟩).head? := by
  unfold handleSpecialSelectors
  rw [hsplit]
  simp [hne, h1, h2, h3, h4, h5, h6]

/-- C9 witness: the amended statement at `div:foo` on a two-`div` page. -/
theorem claim9_witness :
    handleSpecialSelectors dom9 "div:foo" = (dom9.query "div").head? :=
  claim9_unknown_modifier_first dom9 "div:foo"
    ('d' :: 'i' :: 'v' :: []) ('f' :: 'o' :: 'o' :: [])
    (by decide) (by decide) (by decide) (by decide) (by decide) (by decide)
    (by decide) (by decide)

end WebAuto
